import Mathlib

/-!
# ci-cd-k8s: the HTTP service of `app/main.go`

A shallow embedding of `app/main.go`: the package-level variable `port`, the
startup routine `main`, and the two handlers `health` and `argo`.

The program delegates to the Go standard library and to the gin framework.
The parts of their behaviour the program relies on are embedded next to it:

* `os.Getenv`, `fmt.Sprint`, `log.Fatal` and the formatting `"0.0.0.0:%s"`;
* `c.JSON`, which sets the status and renders a `gin.H` through
  `encoding/json`; a `gin.H` is a Go map, and `encoding/json` writes the keys
  of a map in sorted order;
* the engine returned by `gin.Default()`, whose dispatch (`handleHTTPRequest`)
  runs the handler of an exactly matching route, redirects when the path
  differs from a route only by a trailing slash (`RedirectTrailingSlash` is on
  by default), and otherwise answers 404 (`HandleMethodNotAllowed` is off by
  default).

The wall clock (`time.Now()`), the process environment and the result of
`router.Run` are inputs of the embedding.
-/

namespace CiCdK8s

/-! ## Values, payloads and their JSON encoding -/

/-- An instant read from the wall clock (a `time.Time`), as nanoseconds since
the Unix epoch. -/
structure Time where
  unixNano : Int
deriving DecidableEq, Repr

/-- The values this program stores in a `gin.H`: Go strings and `time.Time`. -/
inductive Value where
  | str (s : String)
  | time (t : Time)
deriving DecidableEq, Repr

/-- The type `gin.H`, that is `map[string]interface{}`, given by its entries.
A Go map has no order of its own; the list holds the entries of the map
literal, and the JSON encoding below sorts them by key before writing. -/
abbrev gin.H := List (String × Value)

/-- The map lookup `h[k]`. -/
def gin.H.get? (h : gin.H) (k : String) : Option Value :=
  match h with
  | [] => none
  | (k', v) :: rest => if k' = k then some v else gin.H.get? rest k

/-- The keys of the map. -/
def gin.H.keys (h : gin.H) : List String := h.map Prod.fst

/-- One hexadecimal digit, lower case, as `encoding/json` writes it. -/
def json.hex (n : Nat) : Char :=
  "0123456789abcdef".toList.getD (n % 16) '0'

/-- The escape `encoding/json` writes for one character of a string, with
HTML escaping on (as `json.Marshal` has it; backspace and form feed in the
short forms of the current Go releases). -/
def json.escapeChar (ch : Char) : List Char :=
  if ch = '"' then ['\\', '"']
  else if ch = '\\' then ['\\', '\\']
  else if ch = '\x08' then ['\\', 'b']
  else if ch = '\x0c' then ['\\', 'f']
  else if ch = '\n' then ['\\', 'n']
  else if ch = '\r' then ['\\', 'r']
  else if ch = '\t' then ['\\', 't']
  else if ch.toNat < 32 ∨ ch = '<' ∨ ch = '>' ∨ ch = '&' then
    ['\\', 'u', '0', '0', json.hex (ch.toNat / 16), json.hex ch.toNat]
  else if ch.toNat = 0x2028 then ['\\', 'u', '2', '0', '2', '8']
  else if ch.toNat = 0x2029 then ['\\', 'u', '2', '0', '2', '9']
  else [ch]

/-- The characters of a Go string as a JSON string literal, without the
surrounding quotes. -/
def json.escape : List Char → List Char
  | [] => []
  | ch :: rest => json.escapeChar ch ++ json.escape rest

/-- A Go string as a JSON string literal. -/
def json.quote (s : String) : String :=
  String.mk ('"' :: json.escape s.toList ++ ['"'])

/-- The JSON text of one value. The text `time.Time.MarshalJSON` produces (a
quoted RFC 3339 date-time) is the parameter `fmtTime`. -/
def json.encodeValue (fmtTime : Time → String) : Value → String
  | .str s => json.quote s
  | .time t => fmtTime t

/-- The order `encoding/json` sorts map keys by: the lexicographic order of
the strings (Go compares their UTF-8 bytes, which orders strings as their
code points do). -/
def json.keyLess : List Char → List Char → Bool
  | _, [] => false
  | [], _ :: _ => true
  | a :: as, b :: bs =>
    if a.toNat < b.toNat then true
    else if b.toNat < a.toNat then false
    else json.keyLess as bs

/-- Insert an entry into a list of entries sorted by key. -/
def json.insertByKey (e : String × Value) : List (String × Value) → List (String × Value)
  | [] => [e]
  | e' :: rest =>
    if json.keyLess e'.1.toList e.1.toList then e' :: json.insertByKey e rest
    else e :: e' :: rest

/-- The entries of a map sorted by key, the order in which `encoding/json`
writes them. -/
def json.sortByKey : List (String × Value) → List (String × Value)
  | [] => []
  | e :: rest => json.insertByKey e (json.sortByKey rest)

/-- The call `json.Marshal(obj)` for a `gin.H`: a JSON object whose members
are the entries of the map in sorted key order, with no whitespace. -/
def json.Marshal (fmtTime : Time → String) (obj : gin.H) : String :=
  "\x7b" ++ ",".intercalate
    ((json.sortByKey obj).map (fun e => json.quote e.1 ++ ":" ++ json.encodeValue fmtTime e.2))
    ++ "\x7d"

/-! ## Requests, contexts and handlers -/

/-- The constant `http.StatusOK`. -/
def http.StatusOK : Nat := 200
/-- The constant `http.StatusMovedPermanently`. -/
def http.StatusMovedPermanently : Nat := 301
/-- The constant `http.StatusTemporaryRedirect`. -/
def http.StatusTemporaryRedirect : Nat := 307
/-- The constant `http.StatusNotFound`. -/
def http.StatusNotFound : Nat := 404
/-- The constant `http.StatusMethodNotAllowed`. -/
def http.StatusMethodNotAllowed : Nat := 405
/-- The constant `http.MethodGet`. -/
def http.MethodGet : String := "GET"
/-- The constant `http.MethodConnect`. -/
def http.MethodConnect : String := "CONNECT"

/-- An incoming request (`http.Request`), as far as a handler can read it. -/
structure Request where
  Method : String
  Path : String
  RawQuery : String := ""
  Header : List (String × String) := []
  Body : String := ""
deriving DecidableEq, Repr

/-- The per-request `gin.Context`: the request as it was received, and what
has been written to the response. A fresh response writer has status 200 and
nothing rendered. `fullPath` is the path of the matched route
(`c.FullPath()`), empty when no route matched. The response headers (among
them the `Location` of a redirect) and the bodies of answers that are not JSON
are not represented. -/
structure gin.Context where
  Request : Request
  status : Nat := 200
  payload : Option gin.H := none
  fullPath : String := ""
deriving DecidableEq, Repr

/-- The function `bodyAllowedForStatus` of gin: a response with a status
1xx, 204 or 304 carries no body. -/
def gin.bodyAllowedForStatus (status : Nat) : Bool :=
  if 100 ≤ status ∧ status ≤ 199 then false
  else if status = 204 then false
  else if status = 304 then false
  else true

/-- The call `c.JSON(code, obj)`: sets the status and, when the status allows
a body, renders `obj` as the body. -/
def gin.Context.JSON (c : gin.Context) (code : Nat) (obj : gin.H) : gin.Context :=
  if gin.bodyAllowedForStatus code then { c with status := code, payload := some obj }
  else { c with status := code }

/-- The bytes of the response body when a JSON payload was rendered. -/
def gin.Context.body (fmtTime : Time → String) (c : gin.Context) : Option String :=
  c.payload.map (json.Marshal fmtTime)

/-- The package-level variables of `main.go`: `var port string`. -/
structure Globals where
  port : String := ""
deriving DecidableEq, Repr

/-- A `gin.HandlerFunc`, with the state a Go function body can reach made
explicit: the wall clock reading `time.Now()` would return while it runs, and
the package-level variables, which it may read and write. -/
abbrev gin.HandlerFunc := Time → Globals → gin.Context → Globals × gin.Context

/-- The handler `health` of `main.go`. -/
def health : gin.HandlerFunc := fun _now g c =>
  (g, c.JSON http.StatusOK [
    ("success", .str "true"),
    ("message", .str "api is working")])

/-- The handler `argo` of `main.go`; `now` is the value of `time.Now()`. -/
def argo : gin.HandlerFunc := fun now g c =>
  (g, c.JSON http.StatusOK [
    ("success", .str "true"),
    ("message", .str "our CI/CD pipeline is working"),
    ("timestamp", .time now)])

/-! ## The router -/

/-- One registered route: method, path and handler. -/
structure gin.RouteInfo where
  Method : String
  Path : String
  HandlerFunc : gin.HandlerFunc

/-- The `gin.Engine`, as far as this program configures it: the two dispatch
switches an engine is created with, and the registered routes. (The switches
`RedirectFixedPath`, `UseRawPath` and `RemoveExtraSlash` are off in a new
engine and this program never turns them on; their branches are left out.) -/
structure gin.Engine where
  RedirectTrailingSlash : Bool
  HandleMethodNotAllowed : Bool
  routes : List gin.RouteInfo

/-- The engine `gin.Default()` returns: no routes, trailing-slash redirection
on, method-not-allowed handling off. (Its two middlewares, the logger and the
panic recovery, do not change the response of a handler that returns.) -/
def gin.Default : gin.Engine :=
  { RedirectTrailingSlash := true, HandleMethodNotAllowed := false, routes := [] }

/-- The call `router.GET(path, handler)`: registers a route for method GET. -/
def gin.Engine.GET (engine : gin.Engine) (path : String) (handler : gin.HandlerFunc) :
    gin.Engine :=
  { engine with routes := engine.routes ++ [⟨http.MethodGet, path, handler⟩] }

/-- The route registered for exactly this method and path, if any. -/
def gin.Engine.getValue (engine : gin.Engine) (method path : String) : Option gin.RouteInfo :=
  engine.routes.find? (fun r => decide (r.Method = method) && decide (r.Path = path))

/-- The trailing-slash recommendation of the route lookup: no route matches
the path, but one of this method matches it with a slash added or removed. -/
def gin.Engine.tsr (engine : gin.Engine) (method path : String) : Bool :=
  engine.routes.any (fun r =>
    decide (r.Method = method) &&
      (decide (path = r.Path ++ "/") || decide (r.Path = path ++ "/")))

/-- The function `redirectTrailingSlash`: answers with a redirect, 301 for a
GET request and 307 for any other method, without running a handler. Only the
status is recorded: the target of the redirect, which gin builds from the
whole request URL (query string included) and the `X-Forwarded-Prefix` header,
is a response header and is not represented. -/
def gin.redirectTrailingSlash (c : gin.Context) : gin.Context :=
  { c with
    status := if c.Request.Method = http.MethodGet then http.StatusMovedPermanently
              else http.StatusTemporaryRedirect }

/-- The function `serveError`: answers with the given status and gin's default
plain-text body, without running a handler. -/
def gin.serveError (c : gin.Context) (code : Nat) : gin.Context :=
  { c with status := code }

/-- The dispatch `engine.handleHTTPRequest(c)`. An exactly matching route runs
its handler. Otherwise, unless the method is CONNECT or the path is `/`, a
trailing-slash recommendation is answered with a redirect when
`RedirectTrailingSlash` is on. Otherwise the answer is 405 when
`HandleMethodNotAllowed` is on and another method has a route for the path,
and 404 in every remaining case. -/
def gin.Engine.handleHTTPRequest (engine : gin.Engine) : gin.HandlerFunc := fun now g c =>
  match engine.getValue c.Request.Method c.Request.Path with
  | some r => r.HandlerFunc now g { c with fullPath := r.Path }
  | none =>
    if c.Request.Method ≠ http.MethodConnect ∧ c.Request.Path ≠ "/" ∧
        engine.tsr c.Request.Method c.Request.Path = true ∧
        engine.RedirectTrailingSlash = true then
      (g, gin.redirectTrailingSlash c)
    else if engine.HandleMethodNotAllowed = true ∧
        engine.routes.any (fun r =>
          decide (r.Method ≠ c.Request.Method) && decide (r.Path = c.Request.Path)) = true then
      (g, gin.serveError c http.StatusMethodNotAllowed)
    else
      (g, gin.serveError c http.StatusNotFound)

/-- The method `engine.ServeHTTP`: a fresh context for the request, then the
dispatch. `now` is the wall clock reading while the request is handled. -/
def gin.Engine.ServeHTTP (engine : gin.Engine) (now : Time) (g : Globals) (req : Request) :
    Globals × gin.Context :=
  engine.handleHTTPRequest now g { Request := req }

/-- The serving loop, one request after the other: each request arrives with
the wall clock reading at its handling; the package-level variables are
threaded through, the responses are collected. -/
def gin.Engine.serve (engine : gin.Engine) (g : Globals) :
    List (Time × Request) → Globals × List gin.Context
  | [] => (g, [])
  | (now, req) :: rest =>
    let r := engine.ServeHTTP now g req
    let rs := gin.Engine.serve engine r.1 rest
    (rs.1, r.2 :: rs.2)

/-! ## Startup -/

/-- A Go `error` value: `nil`, or an error with its message. -/
abbrev error := Option String

/-- The text `fmt.Sprint(err)` of an error value. -/
def fmt.Sprint (err : error) : String :=
  match err with
  | none => "<nil>"
  | some msg => msg

/-- The call `os.Getenv(key)`: the value of the variable, empty when unset. -/
def os.Getenv (env : String → Option String) (key : String) : String :=
  match env key with
  | some v => v
  | none => ""

/-- How the process stands after `main` has run as far as it gets. -/
inductive Termination where
  /-- The call `router.Run` has not returned: the server is serving. -/
  | serving
  /-- The process ended through `os.Exit(code)`. -/
  | exited (code : Nat)
  /-- The function `main` returned normally (exit status 0). -/
  | returned
deriving DecidableEq, Repr

/-- The state of the process: the package-level variables, the lines written
by the `log` package, and the arguments `router.Run` was called with. -/
structure Process where
  globals : Globals := {}
  logged : List String := []
  listening : Option (gin.Engine × String) := none

/-- The call `log.Fatal(err)`: logs the value, then `os.Exit(1)`. -/
def log.Fatal (p : Process) (err : error) : Process × Termination :=
  ({ p with logged := p.logged ++ [fmt.Sprint err] }, .exited 1)

/-- The function `main` of `main.go`. `env` is the process environment;
`run router addr` is what `router.Run(addr)` does: `none` when it keeps
serving and never returns, `some err` when it returns the error `err`. -/
def main (env : String → Option String) (run : gin.Engine → String → Option error) :
    Process × Termination :=
  let port := os.Getenv env "PORT"
  let port := if port = "" then "3000" else port
  let router := gin.Default
  let router := router.GET "/health" health
  let router := router.GET "/argo" argo
  let addr := "0.0.0.0:" ++ port
  let p : Process := { globals := { port := port }, listening := some (router, addr) }
  match run router addr with
  | none => (p, .serving)
  | some err => log.Fatal p err

/-! ## Helper lemmas -/

/-- With status 200 the call `c.JSON` sets the status and the payload. -/
theorem JSON_statusOK (c : gin.Context) (obj : gin.H) :
    c.JSON http.StatusOK obj = { c with status := 200, payload := some obj } := rfl

/-- No path followed by a slash is the route `/health`. -/
theorem append_slash_ne_health (p : String) : ¬ ("/health" = p ++ "/") := by
  intro h
  have h2 := congrArg (fun s => s.toList.reverse) h
  simp at h2

/-- No path followed by a slash is the route `/argo`. -/
theorem append_slash_ne_argo (p : String) : ¬ ("/argo" = p ++ "/") := by
  intro h
  have h2 := congrArg (fun s => s.toList.reverse) h
  simp at h2

/-- The routes of the engine `main` builds. -/
theorem registered_routes :
    ((gin.Default.GET "/health" health).GET "/argo" argo).routes
      = [⟨"GET", "/health", health⟩, ⟨"GET", "/argo", argo⟩] := rfl

/-- The dispatch of the engine `main` builds, case by case. -/
theorem serveHTTP_router (now : Time) (g : Globals) (req : Request) :
    ((gin.Default.GET "/health" health).GET "/argo" argo).ServeHTTP now g req =
      if req.Method = "GET" ∧ req.Path = "/health" then
        health now g { Request := req, fullPath := "/health" }
      else if req.Method = "GET" ∧ req.Path = "/argo" then
        argo now g { Request := req, fullPath := "/argo" }
      else if req.Method = "GET" ∧ (req.Path = "/health/" ∨ req.Path = "/argo/") then
        (g, gin.redirectTrailingSlash { Request := req })
      else (g, gin.serveError { Request := req } http.StatusNotFound) := by
  obtain ⟨m, p, q, hd, b⟩ := req
  simp only [gin.Engine.ServeHTTP, gin.Engine.handleHTTPRequest, gin.Engine.getValue,
    gin.Engine.tsr, registered_routes, List.find?, List.any, http.MethodGet, http.MethodConnect]
  by_cases hm : m = "GET"
  · subst hm
    by_cases h1 : p = "/health"
    · subst h1; simp
    · by_cases h2 : p = "/argo"
      · subst h2; simp
      · have e1 : ("/health" : String) ++ "/" = "/health/" := by decide
        have e2 : ("/argo" : String) ++ "/" = "/argo/" := by decide
        simp [h1, h2, Ne.symm h1, Ne.symm h2, e1, e2, append_slash_ne_health,
          append_slash_ne_argo, gin.Default, gin.Engine.GET]
        by_cases h3 : p = "/health/" ∨ p = "/argo/"
        · rcases h3 with h3 | h3 <;> subst h3 <;> simp
        · simp [h3]
  · simp [hm, Ne.symm hm, gin.Default, gin.serveError, gin.Engine.GET]

/-- Handling one request with the engine `main` builds leaves the
package-level variables as they were. -/
theorem serveHTTP_router_globals (now : Time) (g : Globals) (req : Request) :
    (((gin.Default.GET "/health" health).GET "/argo" argo).ServeHTTP now g req).1 = g := by
  rw [serveHTTP_router]
  split_ifs <;> rfl

/-- Handling a sequence of requests with the engine `main` builds leaves the
package-level variables as they were. -/
theorem serve_router_globals (g : Globals) (reqs : List (Time × Request)) :
    (((gin.Default.GET "/health" health).GET "/argo" argo).serve g reqs).1 = g := by
  induction reqs generalizing g with
  | nil => rfl
  | cons x rest ih =>
    obtain ⟨now, req⟩ := x
    simp only [gin.Engine.serve]
    rw [serveHTTP_router_globals, ih]

/-- What `main` calls `router.Run` with: the engine with the two routes, and
the address built from the chosen port. -/
theorem main_listening (env : String → Option String)
    (run : gin.Engine → String → Option error) :
    (main env run).1.listening =
      some ((gin.Default.GET "/health" health).GET "/argo" argo,
        "0.0.0.0:" ++ (if os.Getenv env "PORT" = "" then "3000" else os.Getenv env "PORT")) := by
  unfold main
  simp only
  split <;> rfl

/-- The value `main` leaves in the package-level variable `port`. -/
theorem main_globals (env : String → Option String)
    (run : gin.Engine → String → Option error) :
    (main env run).1.globals =
      { port := if os.Getenv env "PORT" = "" then "3000" else os.Getenv env "PORT" } := by
  unfold main
  simp only
  split <;> rfl

/-! ## The claims -/

/-- C1, as the code has it: for every request handled by `health` the status
is 200 and the serialized body is the JSON object with the two members in
sorted key order, `message` before `success`, without whitespace. -/
theorem health_status_and_body (fmtTime : Time → String) (now : Time) (g : Globals)
    (c : gin.Context) :
    (health now g c).2.status = 200 ∧
    (health now g c).2.body fmtTime =
      some "\x7b\"message\":\"api is working\",\"success\":\"true\"\x7d" := by
  constructor
  · rfl
  · simp only [health, JSON_statusOK, gin.Context.body, Option.map]
    congr 1

/-- C1, as stated, fails: for a GET request to `/health` the serialized body is
not the text with `success` before `message`. -/
theorem health_body_success_first_fails :
    ¬ ((health ⟨0⟩ {} { Request := { Method := "GET", Path := "/health" } }).2.status = 200 ∧
       (health ⟨0⟩ {} { Request := { Method := "GET", Path := "/health" } }).2.body (fun _ => "") =
         some "\x7b\"success\":\"true\",\"message\":\"api is working\"\x7d") := by
  decide

/-- C2: for every request handled by `argo` and every clock value `t` read
while handling it, the status is 200 and the payload has `success` = "true",
`message` = "our CI/CD pipeline is working" and `timestamp` = `t`. -/
theorem argo_status_and_payload (t : Time) (g : Globals) (c : gin.Context) :
    (argo t g c).2.status = 200 ∧
    ∃ h : gin.H, (argo t g c).2.payload = some h ∧
      h.get? "success" = some (.str "true") ∧
      h.get? "message" = some (.str "our CI/CD pipeline is working") ∧
      h.get? "timestamp" = some (.time t) := by
  refine ⟨rfl, _, rfl, ?_, ?_, ?_⟩ <;> simp [gin.H.get?]

/-- C6: whenever `router.Run` returns an error value, `main` logs it and the
process exits with status 1; and in no case does `main` return normally or
exit with status 0 (it is either still serving or has exited with status 1). -/
theorem main_fatal_on_run_error (env : String → Option String)
    (run : gin.Engine → String → Option error) :
    (∀ router addr err, (main env run).1.listening = some (router, addr) →
        run router addr = some err →
        (main env run).2 = .exited 1 ∧ (main env run).1.logged = [fmt.Sprint err]) ∧
    (main env run).2 ≠ .returned ∧
    (main env run).2 ≠ .exited 0 ∧
    ((main env run).2 = .serving ∨ (main env run).2 = .exited 1) := by
  refine ⟨?_, ?_, ?_, ?_⟩
  · intro router addr err hl hr
    rw [main_listening] at hl
    simp only [Option.some.injEq, Prod.mk.injEq] at hl
    obtain ⟨h1, h2⟩ := hl
    subst h1 h2
    unfold main
    simp [hr, log.Fatal]
  all_goals
    unfold main
    simp only
    split <;> simp [log.Fatal]

/-- Witness of C6: binding the port fails and `router.Run` returns the error. -/
theorem main_fatal_on_run_error_witness :
    (main (fun _ => none) (fun _ _ => some (some "bind: address already in use"))).1.listening
      = some ((gin.Default.GET "/health" health).GET "/argo" argo, "0.0.0.0:3000") ∧
    (main (fun _ => none) (fun _ _ => some (some "bind: address already in use"))).2
      = .exited 1 ∧
    (main (fun _ => none) (fun _ _ => some (some "bind: address already in use"))).1.logged
      = ["bind: address already in use"] :=
  ⟨rfl, (main_fatal_on_run_error (fun _ => none)
      (fun _ _ => some (some "bind: address already in use"))).1 _ _
      (some "bind: address already in use") rfl rfl⟩

/-- C7: the status and payload `health` produces are the same for any two
requests, clock values and states; the status and the `success` and `message`
fields `argo` produces are the same for any two requests and clock values. -/
theorem handlers_independent_of_request (t₁ t₂ : Time) (g₁ g₂ : Globals)
    (c₁ c₂ : gin.Context) :
    ((health t₁ g₁ c₁).2.status = (health t₂ g₂ c₂).2.status ∧
      (health t₁ g₁ c₁).2.payload = (health t₂ g₂ c₂).2.payload) ∧
    ((argo t₁ g₁ c₁).2.status = (argo t₂ g₂ c₂).2.status ∧
      (argo t₁ g₁ c₁).2.payload.bind (fun h => h.get? "success")
        = (argo t₂ g₂ c₂).2.payload.bind (fun h => h.get? "success") ∧
      (argo t₁ g₁ c₁).2.payload.bind (fun h => h.get? "message")
        = (argo t₂ g₂ c₂).2.payload.bind (fun h => h.get? "message")) := by
  refine ⟨⟨rfl, rfl⟩, rfl, ?_, ?_⟩ <;>
    simp [argo, JSON_statusOK, gin.H.get?]

/-- C9: the payload of `health` has exactly the keys `success` and `message`,
the payload of `argo` exactly the keys `success`, `message` and `timestamp`;
in both the value of `success` is the string "true" and the value of `message`
is a string. -/
theorem payload_shapes (t : Time) (g : Globals) (c : gin.Context) :
    (∃ h : gin.H, (health t g c).2.payload = some h ∧
      h.keys.Nodup ∧ (∀ k, k ∈ h.keys ↔ k = "success" ∨ k = "message") ∧
      h.get? "success" = some (.str "true") ∧
      ∃ s, h.get? "message" = some (.str s)) ∧
    (∃ h : gin.H, (argo t g c).2.payload = some h ∧
      h.keys.Nodup ∧ (∀ k, k ∈ h.keys ↔ k = "success" ∨ k = "message" ∨ k = "timestamp") ∧
      h.get? "success" = some (.str "true") ∧
      ∃ s, h.get? "message" = some (.str s)) := by
  constructor
  · refine ⟨_, rfl, by decide, ?_, by simp [gin.H.get?], "api is working", ?_⟩
    · intro k
      simp [gin.H.keys]
    · simp [gin.H.get?]
  · refine ⟨_, rfl, ?_, ?_, by simp [gin.H.get?], "our CI/CD pipeline is working", ?_⟩
    · simp [gin.H.keys]
    · intro k
      simp [gin.H.keys]
    · simp [gin.H.get?]

/-- C10: `main` writes `port` before it starts the router, and neither handler
writes it: `health` and `argo` return the package-level variables unchanged,
and after any sequence of requests handled by the router `main` started, from
any state of the variables and in particular from the one `main` left, `port`
has the value it had. -/
theorem port_unchanged_by_requests (env : String → Option String)
    (run : gin.Engine → String → Option error) (reqs : List (Time × Request)) :
    (∀ now g c, (health now g c).1.port = g.port ∧ (argo now g c).1.port = g.port) ∧
    ∃ router addr, (main env run).1.listening = some (router, addr) ∧
      (∀ g : Globals, (router.serve g reqs).1.port = g.port) ∧
      (router.serve (main env run).1.globals reqs).1.port
        = (if os.Getenv env "PORT" = "" then "3000" else os.Getenv env "PORT") := by
  refine ⟨fun _ _ _ => ⟨rfl, rfl⟩, _, _, main_listening env run, ?_, ?_⟩
  · intro g
    rw [serve_router_globals]
  · rw [serve_router_globals, main_globals]

end CiCdK8s
